import Mathlib

/-!
Verification of the browser voice-call demo (`src/app/page.tsx`).

The component is shallowly embedded: its pure helpers become Lean
functions and its event-driven session state becomes an explicit state
record with an executable step function over labelled events.  JS
strings are modelled as Lean `String`; `toLowerCase` on the ASCII texts
involved is modelled by mapping `Char.toLower` over the characters, and
`String.prototype.includes` is contiguous-substring containment.  The
wall clock read by `new Date()` is passed explicitly: the strings
produced by `toLocaleTimeString` and `toLocaleDateString` become
parameters `timeStr` and `dateStr`.
-/

namespace CallAgent

/-- Model of `userInput.toLowerCase()` on the ASCII texts the component
handles: lower-case every character. -/
def lowerStr (s : String) : String := String.mk (s.data.map Char.toLower)

/-- Model of `s.includes(pat)`: `pat` occurs contiguously inside `s`. -/
def strContains (s pat : String) : Bool := decide (pat.data <:+: s.data)

/-- Embedding of `generateResponse` after its first line: the if-chain of
`input.includes(...)` tests from `src/app/page.tsx`, in source order.
`timeStr` stands for `new Date().toLocaleTimeString()` and `dateStr` for
the `toLocaleDateString` rendering, read at the moment of the call. -/
def respond (input timeStr dateStr : String) : String :=
  if strContains input "hello" || strContains input "hi" then
    "Hello! It\x27s great to hear from you. What can I assist you with?"
  else if strContains input "how are you" then
    "I\x27m functioning perfectly, thank you for asking! How can I help you today?"
  else if strContains input "appointment" || strContains input "schedule" then
    "I can help you schedule an appointment. What date and time works best for you?"
  else if strContains input "weather" then
    "I can help with weather information. Which location are you interested in?"
  else if strContains input "help" then
    "I\x27m here to assist you with scheduling appointments, answering questions, or providing information. What do you need?"
  else if strContains input "thank" then
    "You\x27re very welcome! Is there anything else I can help you with?"
  else if strContains input "bye" || strContains input "goodbye" then
    "Goodbye! Have a wonderful day. Feel free to call again anytime!"
  else if strContains input "name" then
    "I\x27m an AI calling agent designed to assist you with various tasks and inquiries."
  else if strContains input "time" then
    "The current time is " ++ timeStr ++ "."
  else if strContains input "date" then
    "Today is " ++ dateStr ++ "."
  else
    "I understand. Could you tell me more about what you need assistance with?"

/-- Embedding of `generateResponse`: `const input = userInput.toLowerCase()`
followed by the keyword if-chain. -/
def generateResponse (userInput timeStr dateStr : String) : String :=
  respond (lowerStr userInput) timeStr dateStr

/-- A keyword rule of the spec's ordered rule table: a list of trigger
keywords and the canned reply (parameterised by the two clock renderings). -/
structure Rule where
  keywords : List String
  reply : String → String → String

/-- The spec's canonical rule order: greeting, well-being, appointment,
weather, help, thanks, farewell, identity, time, date. -/
def ruleTable : List Rule :=
  [⟨["hello", "hi"], fun _ _ =>
      "Hello! It\x27s great to hear from you. What can I assist you with?"⟩,
   ⟨["how are you"], fun _ _ =>
      "I\x27m functioning perfectly, thank you for asking! How can I help you today?"⟩,
   ⟨["appointment", "schedule"], fun _ _ =>
      "I can help you schedule an appointment. What date and time works best for you?"⟩,
   ⟨["weather"], fun _ _ =>
      "I can help with weather information. Which location are you interested in?"⟩,
   ⟨["help"], fun _ _ =>
      "I\x27m here to assist you with scheduling appointments, answering questions, or providing information. What do you need?"⟩,
   ⟨["thank"], fun _ _ =>
      "You\x27re very welcome! Is there anything else I can help you with?"⟩,
   ⟨["bye", "goodbye"], fun _ _ =>
      "Goodbye! Have a wonderful day. Feel free to call again anytime!"⟩,
   ⟨["name"], fun _ _ =>
      "I\x27m an AI calling agent designed to assist you with various tasks and inquiries."⟩,
   ⟨["time"], fun t _ => "The current time is " ++ t ++ "."⟩,
   ⟨["date"], fun _ d => "Today is " ++ d ++ "."⟩]

/-- The generic fallback reply. -/
def fallbackReply : String :=
  "I understand. Could you tell me more about what you need assistance with?"

/-- Spec-side matcher, written from the spec's words: lower-case the
input, walk the ordered rule table, return the reply of the first rule
one of whose keywords the input contains, else the fallback. -/
def specResponse (userInput timeStr dateStr : String) : String :=
  match ruleTable.find?
      (fun r => r.keywords.any (fun k => strContains (lowerStr userInput) k)) with
  | some r => r.reply timeStr dateStr
  | none => fallbackReply

set_option maxHeartbeats 2000000 in
theorem respond_eq_ruleTable (input ts ds : String) :
    respond input ts ds =
      (match ruleTable.find? (fun r => r.keywords.any (fun k => strContains input k)) with
       | some r => r.reply ts ds
       | none => fallbackReply) := by
  unfold respond ruleTable fallbackReply
  simp only [List.find?_cons, List.find?_nil, List.any_cons, List.any_nil, Bool.or_false]
  split_ifs <;> simp_all only [Bool.not_eq_true]

/-- Embedding of `formatDuration`'s `padStart(2, '0')`: left-pad a string
with the character `0` to length two. -/
def padTwo (s : String) : String :=
  if s.length < 2 then String.mk (List.replicate (2 - s.length) (Char.ofNat 48)) ++ s
  else s

/-- Embedding of `formatDuration`: minutes are `Math.floor(seconds / 60)`,
seconds are `seconds % 60`, both rendered in decimal and zero-padded to
two digits, joined by a colon. -/
def formatDuration (seconds : Nat) : String :=
  let mins := seconds / 60
  let secs := seconds % 60
  padTwo (toString mins) ++ ":" ++ padTwo (toString secs)

/-- Claim C4: `generateResponse` returns the reply of the first rule of the
ordered table greeting, well-being, appointment, weather, help, thanks,
farewell, identity, time, date whose keyword the lower-cased input
contains, and the fallback when none matches; an input containing both
"thank" and "bye" gets the thanks reply, and a keyword-free input gets
the fallback. -/
theorem generateResponse_first_rule :
    (∀ u ts ds, generateResponse u ts ds = specResponse u ts ds) ∧
    (∀ ts ds, generateResponse "Thank you, bye" ts ds =
      "You\x27re very welcome! Is there anything else I can help you with?") ∧
    (∀ ts ds, generateResponse "qqq" ts ds = fallbackReply) :=
  ⟨fun u ts ds => respond_eq_ruleTable (lowerStr u) ts ds,
   fun _ _ => rfl, fun _ _ => rfl⟩

/-- Claim C5: the input "Hi there" gets exactly the greeting reply, and
the reply to "what time is it" contains the rendered current time. -/
theorem generateResponse_scenarios (ts ds : String) :
    generateResponse "Hi there" ts ds =
      "Hello! It\x27s great to hear from you. What can I assist you with?" ∧
    strContains (generateResponse "what time is it" ts ds) ts = true := by
  refine ⟨rfl, ?_⟩
  have e : generateResponse "what time is it" ts ds =
      "The current time is " ++ ts ++ "." := rfl
  rw [e]
  simp only [strContains, String.data_append, decide_eq_true_eq]
  exact List.infix_append _ _ _

/-- Claim C6: `formatDuration` renders seconds as zero-padded minutes and
seconds with no hour rollover. -/
theorem formatDuration_spec :
    (∀ s : Nat, formatDuration s =
      padTwo (toString (s / 60)) ++ ":" ++ padTwo (toString (s % 60))) ∧
    formatDuration 0 = "00:00" ∧ formatDuration 65 = "01:05" ∧
    formatDuration 3661 = "61:01" :=
  ⟨fun _ => rfl, by decide, by decide, by decide⟩

/-- Claim C10: keyword matching is plain substring containment, not word
matching: any input whose lower-cased text contains "hi" anywhere, even
inside another word, gets the greeting reply. -/
theorem hi_substring_greets (u ts ds : String)
    (h : strContains (lowerStr u) "hi" = true) :
    generateResponse u ts ds =
      "Hello! It\x27s great to hear from you. What can I assist you with?" := by
  unfold generateResponse respond
  have hc : (strContains (lowerStr u) "hello" || strContains (lowerStr u) "hi") = true := by
    rw [h, Bool.or_true]
  rw [hc]
  exact if_pos rfl

/-- Witness for C10 at the input "nothing", which contains "hi" inside a
word. -/
theorem hi_substring_greets_witness :
    strContains (lowerStr "nothing") "hi" = true ∧
    generateResponse "nothing" "" "" =
      "Hello! It\x27s great to hear from you. What can I assist you with?" :=
  ⟨by decide, hi_substring_greets "nothing" "" "" (by decide)⟩

/-- Counterexample to claim C3 as stated: `generateResponse` reads the
clock for inputs reaching the time rule, so two evaluations of the same
text at different clock readings return different replies. -/
theorem generateResponse_clock_dependent :
    ¬ (generateResponse "what time is it" "10:00:00 AM" "D" =
       generateResponse "what time is it" "11:00:00 AM" "D") := by decide

/-- Claim C3 (amended): `generateResponse` is case-insensitive — inputs
with the same lower-casing get the same reply at the same clock reading —
and it is independent of the clock (hence deterministic across
evaluations) for every input whose lower-cased text contains neither
"time" nor "date". -/
theorem generateResponse_deterministic (s t ts ds ts2 ds2 : String)
    (hcase : lowerStr s = lowerStr t) :
    generateResponse s ts ds = generateResponse t ts ds ∧
    (strContains (lowerStr t) "time" = false →
     strContains (lowerStr t) "date" = false →
      generateResponse s ts ds = generateResponse t ts2 ds2) := by
  constructor
  · unfold generateResponse
    rw [hcase]
  · intro h1 h2
    unfold generateResponse
    rw [hcase]
    rw [respond_eq_ruleTable (lowerStr t) ts ds,
        respond_eq_ruleTable (lowerStr t) ts2 ds2]
    cases hf : ruleTable.find?
        (fun r => r.keywords.any (fun k => strContains (lowerStr t) k)) with
    | none => rfl
    | some r =>
      have hp := List.find?_some hf
      have hm := List.mem_of_find?_eq_some hf
      simp only [ruleTable, List.mem_cons, List.not_mem_nil, or_false] at hm
      rcases hm with h | h | h | h | h | h | h | h | h | h <;> subst h <;>
        simp_all only [List.any_cons, List.any_nil, Bool.or_false, Bool.false_eq_true]

/-- Witness for the amended C3 at a concrete case-variant pair. -/
theorem generateResponse_deterministic_witness :
    generateResponse "HI There" "x" "y" = generateResponse "hi there" "x" "y" ∧
    (strContains (lowerStr "hi there") "time" = false →
     strContains (lowerStr "hi there") "date" = false →
      generateResponse "HI There" "x" "y" = generateResponse "hi there" "z" "w") :=
  generateResponse_deterministic "HI There" "hi there" "x" "y" "z" "w" (by decide)

/-! ## Session state machine

The component's React state and its timers become an explicit state
record.  `setTimeout` callbacks become entries of a pending list tagged
with their absolute deadline; browser timers fire in deadline order, so
an entry may fire only when no other pending deadline is earlier, and a
user click or recognition event at time `t` may occur only when no
pending deadline is below `t`.  The platform is modelled with speech
recognition available, as the spec's main scenario assumes.  `rt`/`rd`
stand for the platform's locale time and date renderings of the clock. -/

/-- The `role` field of a transcript message. -/
inductive Role
  | user
  | assistant
  deriving DecidableEq

/-- The four-state call status of the component. -/
inductive CallStatus
  | idle
  | connecting
  | active
  | ended
  deriving DecidableEq

/-- What a scheduled `setTimeout` callback will do when it fires: the
simulated-connect body of `startCall`, the status reset scheduled by
`endCall`, or the delayed reply of `handleUserSpeech` for a given
utterance. -/
inductive PendingKind
  | connect
  | reset
  | reply (text : String)
  deriving DecidableEq

/-- A transcript message `{role, content, timestamp}`; the `new Date()`
timestamp is modelled as the session clock value at append time. -/
structure Message where
  role : Role
  content : String
  timestamp : Nat
  deriving DecidableEq

/-- The component's state: the five `useState` values, the timer interval
(count of running intervals plus whether `timerRef` tracks one), the
pending `setTimeout` callbacks with absolute deadlines, and the
synthesizer's utterance queue. -/
structure AppState where
  now : Nat
  status : CallStatus
  messages : List Message
  isRecording : Bool
  transcript : String
  callDuration : Nat
  timers : Nat
  tracked : Bool
  pending : List (Nat × PendingKind)
  speechQueue : List String
  deriving DecidableEq

/-- The greeting spoken when the call becomes active. -/
def greetingText : String :=
  "Hello! I\x27m your AI calling agent. How can I help you today?"

/-- Embedding of `addMessage`: append `{role, content, timestamp: new Date()}`. -/
def addMessage (s : AppState) (role : Role) (content : String) : AppState :=
  { s with messages := s.messages ++ [⟨role, content, s.now⟩] }

/-- Embedding of `synth.cancel()`: drop every queued utterance. -/
def cancelSpeech (_q : List String) : List String := []

/-- Embedding of `synth.speak(utterance)`: enqueue the utterance text. -/
def enqueueSpeech (q : List String) (text : String) : List String := q ++ [text]

/-- Embedding of `speak`: cancel whatever is queued, then enqueue the new
utterance (the rate, pitch and volume fields play no role here). -/
def speak (q : List String) (text : String) : List String :=
  enqueueSpeech (cancelSpeech q) text

/-- Embedding of `endCall`: stop recognition, cancel speech output, clear
the tracked interval if any, set status to ended and schedule the
ended-to-idle reset 2000 ms out. -/
def endCallCore (t : Nat) (s : AppState) : AppState :=
  let s1 := { s with isRecording := false }
  let s2 := { s1 with speechQueue := cancelSpeech s1.speechQueue }
  let s3 := if s2.tracked then { s2 with timers := s2.timers - 1, tracked := false } else s2
  { s3 with status := CallStatus.ended,
            pending := s3.pending ++ [(t + 2000, PendingKind.reset)], now := t }

/-- Embedding of the `setTimeout` body of `startCall`: go active, clear
messages, restart the duration timer, append and speak the greeting, and
start recognition. -/
def onConnect (d : Nat) (s : AppState) : AppState :=
  let s1 := { s with status := CallStatus.active, messages := [],
                     callDuration := 0, now := d }
  let s2 := { s1 with timers := s1.timers + 1, tracked := true }
  let s3 := addMessage s2 Role.assistant greetingText
  let s4 := { s3 with speechQueue := speak s3.speechQueue greetingText }
  { s4 with isRecording := true }

/-- Embedding of the `setTimeout` body of `endCall`: back to idle, clear
the interim transcript. -/
def onReset (d : Nat) (s : AppState) : AppState :=
  { s with status := CallStatus.idle, transcript := "", now := d }

/-- Embedding of the `setTimeout` body of `handleUserSpeech`: compute the
reply from the utterance and the clock, append it and speak it. -/
def onReply (rt rd : Nat → String) (d : Nat) (text : String) (s : AppState) : AppState :=
  let resp := generateResponse text (rt d) (rd d)
  let s1 := addMessage { s with now := d } Role.assistant resp
  { s1 with speechQueue := speak s1.speechQueue resp }

/-- Embedding of `handleUserSpeech` up to its `setTimeout`: clear the
interim transcript, append the user message, schedule the reply 500 ms
out. -/
def handleUserSpeech (t : Nat) (text : String) (s : AppState) : AppState :=
  let s1 := { s with transcript := "", now := t }
  let s2 := addMessage s1 Role.user text
  { s2 with pending := s2.pending ++ [(t + 500, PendingKind.reply text)] }

/-- The events the component reacts to: the two button clicks, final and
interim recognition results, a duration-interval tick, and the firing of
the i-th pending `setTimeout` callback. -/
inductive Event
  | clickStart (t : Nat)
  | clickEnd (t : Nat)
  | speechFinal (t : Nat) (text : String)
  | speechInterim (t : Nat) (text : String)
  | tick (t : Nat)
  | fire (i : Nat)
  deriving DecidableEq

/-- An external event at time `t` is admissible when the clock has not
passed `t` and no pending timeout was due before `t`. -/
def timeOK (t : Nat) (s : AppState) : Bool :=
  decide (s.now ≤ t) && s.pending.all (fun p => decide (t ≤ p.fst))

/-- One event-loop step.  Clicks are guarded by the buttons the UI
renders for the current status; recognition events require recognition
to be started; a pending timeout fires only when it is due no later than
every other pending timeout.  Returns `none` when the event cannot occur
in this state. -/
def stepFn (rt rd : Nat → String) (s : AppState) : Event → Option AppState
  | Event.clickStart t =>
    if s.status = CallStatus.idle then
      if timeOK t s then
        some { s with status := CallStatus.connecting,
                      pending := s.pending ++ [(t + 1500, PendingKind.connect)],
                      now := t }
      else none
    else none
  | Event.clickEnd t =>
    if s.status = CallStatus.connecting ∨ s.status = CallStatus.active then
      if timeOK t s then some (endCallCore t s) else none
    else none
  | Event.speechFinal t text =>
    if s.isRecording then
      if timeOK t s then some (handleUserSpeech t text s) else none
    else none
  | Event.speechInterim t text =>
    if s.isRecording then
      if timeOK t s then some { s with transcript := text, now := t } else none
    else none
  | Event.tick t =>
    if 0 < s.timers then
      if timeOK t s then some { s with callDuration := s.callDuration + 1, now := t }
      else none
    else none
  | Event.fire i =>
    match s.pending.get? i with
    | some (d, k) =>
      if s.pending.all (fun p => decide (d ≤ p.fst)) then
        match k with
        | PendingKind.connect =>
          some (onConnect d { s with pending := s.pending.eraseIdx i })
        | PendingKind.reset =>
          some (onReset d { s with pending := s.pending.eraseIdx i })
        | PendingKind.reply text =>
          some (onReply rt rd d text { s with pending := s.pending.eraseIdx i })
      else none
    | none => none

/-- The component's initial state: idle, empty transcript and message
list, nothing scheduled, nothing queued. -/
def initState : AppState :=
  { now := 0, status := CallStatus.idle, messages := [], isRecording := false,
    transcript := "", callDuration := 0, timers := 0, tracked := false,
    pending := [], speechQueue := [] }

/-- Run a list of events from a state; `none` if some event is not
admissible where it occurs. -/
def run (rt rd : Nat → String) (s : AppState) : List Event → Option AppState
  | [] => some s
  | e :: es =>
    match stepFn rt rd s e with
    | some s1 => run rt rd s1 es
    | none => none

/-- Fixed clock renderings for concrete traces. -/
def rt0 : Nat → String := fun _ => "tt"

/-- Fixed date rendering for concrete traces. -/
def rd0 : Nat → String := fun _ => "dd"

/-- A session that connects, hears one utterance, and is hung up before
the 500 ms reply timeout is due. -/
def trEnded : List Event :=
  [Event.clickStart 0, Event.fire 0, Event.speechFinal 1600 "hello",
   Event.clickEnd 1700]

/-- The same session, with the pending reply timeout then firing. -/
def trReply : List Event := trEnded ++ [Event.fire 0]

/-- The hung-up state reached by `trEnded`. -/
def sEnded : AppState := (run rt0 rd0 initState trEnded).getD initState

/-- A session hung up while still connecting: `endCall` does not cancel
the simulated-connect timeout. -/
def trStartEnd : List Event := [Event.clickStart 0, Event.clickEnd 100]

/-- The same session, with the leftover connect timeout then firing. -/
def trStartEndConnect : List Event := trStartEnd ++ [Event.fire 0]

/-- The connecting state reached by a single start click. -/
def sConnecting : AppState :=
  (run rt0 rd0 initState [Event.clickStart 0]).getD initState

/-- Every status change any step can make: the four documented edges plus
the four produced by uncancelled connect and reset timeouts. -/
def statusEdges : List (CallStatus × CallStatus) :=
  [(CallStatus.idle, CallStatus.connecting),
   (CallStatus.connecting, CallStatus.active),
   (CallStatus.ended, CallStatus.active),
   (CallStatus.idle, CallStatus.active),
   (CallStatus.connecting, CallStatus.ended),
   (CallStatus.active, CallStatus.ended),
   (CallStatus.connecting, CallStatus.idle),
   (CallStatus.active, CallStatus.idle),
   (CallStatus.ended, CallStatus.idle)]

lemma step_status_shape (rt rd : Nat → String) (s : AppState) (e : Event)
    (s2 : AppState) (h : stepFn rt rd s e = some s2) :
    s2.status = s.status ∨
    (s.status = CallStatus.idle ∧ s2.status = CallStatus.connecting) ∨
    ((s.status = CallStatus.connecting ∨ s.status = CallStatus.active) ∧
      s2.status = CallStatus.ended) ∨
    s2.status = CallStatus.active ∨ s2.status = CallStatus.idle := by
  cases e with
  | clickStart t =>
    simp only [stepFn] at h
    split at h
    · split at h
      · injection h with h2
        subst h2
        exact Or.inr (Or.inl ⟨by assumption, rfl⟩)
      · exact Option.noConfusion h
    · exact Option.noConfusion h
  | clickEnd t =>
    simp only [stepFn] at h
    split at h
    · split at h
      · injection h with h2
        subst h2
        rename_i hst _
        exact Or.inr (Or.inr (Or.inl ⟨hst, rfl⟩))
      · exact Option.noConfusion h
    · exact Option.noConfusion h
  | speechFinal t text =>
    simp only [stepFn] at h
    split at h
    · split at h
      · injection h with h2
        subst h2
        exact Or.inl rfl
      · exact Option.noConfusion h
    · exact Option.noConfusion h
  | speechInterim t text =>
    simp only [stepFn] at h
    split at h
    · split at h
      · injection h with h2
        subst h2
        exact Or.inl rfl
      · exact Option.noConfusion h
    · exact Option.noConfusion h
  | tick t =>
    simp only [stepFn] at h
    split at h
    · split at h
      · injection h with h2
        subst h2
        exact Or.inl rfl
      · exact Option.noConfusion h
    · exact Option.noConfusion h
  | fire i =>
    simp only [stepFn] at h
    split at h
    next d k heq =>
      split at h
      · cases k with
        | connect =>
          injection h with h2
          subst h2
          exact Or.inr (Or.inr (Or.inr (Or.inl rfl)))
        | reset =>
          injection h with h2
          subst h2
          exact Or.inr (Or.inr (Or.inr (Or.inr rfl)))
        | reply text =>
          injection h with h2
          subst h2
          exact Or.inl rfl
      · exact Option.noConfusion h
    next heq => exact Option.noConfusion h

/-- Counterexample to claim C2 as stated: `endCall` while connecting does
not cancel the pending simulated-connect timeout, which then fires and
moves the status from ended straight to active — an undocumented
transition. -/
theorem ended_to_active_reachable :
    (run rt0 rd0 initState trStartEnd).map AppState.status =
      some CallStatus.ended ∧
    (run rt0 rd0 initState trStartEndConnect).map AppState.status =
      some CallStatus.active :=
  ⟨rfl, rfl⟩

/-- Claim C2 (amended): user actions follow the documented edges
(startCall only idle→connecting, endCall only from connecting or active
to ended), but the connect and reset timeouts are not cancelled by
endCall and fire whatever the current status, so the undocumented
transitions ended→active, idle→active, connecting→idle and active→idle
also occur; every status change of any step is one of these nine edges. -/
theorem status_edge_characterization (rt rd : Nat → String) (s : AppState)
    (e : Event) (s2 : AppState) (h : stepFn rt rd s e = some s2)
    (hne : s.status ≠ s2.status) :
    (s.status, s2.status) ∈ statusEdges := by
  have hd := step_status_shape rt rd s e s2 h
  cases hs1 : s.status <;> cases hs2 : s2.status <;>
    simp_all [statusEdges]

/-- Witness for the amended C2 at the first step of a session. -/
theorem status_edge_characterization_witness :
    (initState.status,
      ((stepFn rt0 rd0 initState (Event.clickStart 0)).getD initState).status)
      ∈ statusEdges :=
  status_edge_characterization rt0 rd0 initState (Event.clickStart 0)
    ((stepFn rt0 rd0 initState (Event.clickStart 0)).getD initState) rfl
    (by decide)

/-- Counterexample to claim C1 as stated: an utterance is handled while
active, endCall then moves the status to ended, yet the 500 ms reply
timeout still fires and appends an assistant message while the status is
ended. -/
theorem message_appended_while_ended :
    (run rt0 rd0 initState trEnded).map AppState.status =
      some CallStatus.ended ∧
    (run rt0 rd0 initState trEnded).map (fun s => s.messages.length) =
      some 2 ∧
    (run rt0 rd0 initState trReply).map AppState.status =
      some CallStatus.ended ∧
    (run rt0 rd0 initState trReply).map (fun s => s.messages.length) =
      some 3 :=
  ⟨rfl, rfl, rfl, rfl⟩

/-- Claim C1 (amended): `endCall` does not cancel the delayed reply of
`handleUserSpeech`: a pending reply timeout that is due fires whatever
the current status — ended and idle included — appends the assistant
reply, and leaves the status unchanged. -/
theorem reply_fires_regardless_of_status (rt rd : Nat → String)
    (s : AppState) (i d : Nat) (text : String)
    (hk : s.pending.get? i = some (d, PendingKind.reply text))
    (hall : s.pending.all (fun p => decide (d ≤ p.fst)) = true) :
    ∃ s2, stepFn rt rd s (Event.fire i) = some s2 ∧ s2.status = s.status ∧
      s2.messages = s.messages ++
        [⟨Role.assistant, generateResponse text (rt d) (rd d), d⟩] := by
  refine ⟨onReply rt rd d text { s with pending := s.pending.eraseIdx i },
    ?_, rfl, rfl⟩
  simp only [stepFn, hk]
  rw [if_pos hall]

/-- Witness for the amended C1 at the hung-up state of the
counterexample trace. -/
theorem reply_fires_regardless_of_status_witness :
    sEnded.status = CallStatus.ended ∧
    ∃ s2, stepFn rt0 rd0 sEnded (Event.fire 0) = some s2 ∧
      s2.status = sEnded.status ∧
      s2.messages = sEnded.messages ++
        [⟨Role.assistant, generateResponse "hello" (rt0 2100) (rd0 2100),
          2100⟩] :=
  ⟨rfl, reply_fires_regardless_of_status rt0 rd0 sEnded 0 2100 "hello"
    rfl rfl⟩

/-- A session hung up while connecting: the leftover connect timeout
fires after the hang-up and restarts recognition, the reset timeout then
returns the status to idle without stopping that recognition, an interim
result sets the transcript while idle, and a new call is started and
connects. -/
def trLeak : List Event :=
  [Event.clickStart 0, Event.clickEnd 100, Event.fire 0, Event.fire 0,
   Event.speechInterim 2200 "foo", Event.clickStart 2300, Event.fire 0]

/-- Counterexample to claim C7 as stated: neither `startCall` nor the
connect body clears the transcript — only the reset timeout does — and
nothing stops the previous call's leaked recognition session, so the
new call reaches its active state with transcript text "foo" recognized
before it started, while the message list is correctly reset to exactly
the greeting. -/
theorem transcript_carries_over :
    (run rt0 rd0 initState trLeak).map AppState.status =
      some CallStatus.active ∧
    (run rt0 rd0 initState trLeak).map AppState.transcript = some "foo" ∧
    (run rt0 rd0 initState trLeak).map (fun s => s.messages) =
      some [⟨Role.assistant, greetingText, 3800⟩] :=
  ⟨rfl, rfl, rfl⟩

/-- Claim C7 (amended): when a pending connect fires (the moment the
session becomes active, before any user input), the message list is
reset to exactly the greeting, whatever the previous session history
held — messages never carry over; the interim transcript, however, is
cleared only by the ended-to-idle reset timeout, so transcript text from
a previous call's leaked recognition session can carry over. -/
theorem connect_resets_messages (rt rd : Nat → String) (s : AppState)
    (i d : Nat) (s2 : AppState)
    (hk : s.pending.get? i = some (d, PendingKind.connect))
    (hstep : stepFn rt rd s (Event.fire i) = some s2) :
    s2.status = CallStatus.active ∧
    s2.messages = [⟨Role.assistant, greetingText, d⟩] := by
  simp only [stepFn, hk] at hstep
  split at hstep
  · injection hstep with h2
    subst h2
    exact ⟨rfl, rfl⟩
  · exact Option.noConfusion hstep

/-- Witness for C7: firing the connect timeout of a freshly started
session yields exactly the greeting message. -/
theorem connect_resets_messages_witness :
    ((stepFn rt0 rd0 sConnecting (Event.fire 0)).getD initState).status =
      CallStatus.active ∧
    ((stepFn rt0 rd0 sConnecting (Event.fire 0)).getD initState).messages =
      [⟨Role.assistant, greetingText, 1500⟩] :=
  connect_resets_messages rt0 rd0 sConnecting 0 1500
    ((stepFn rt0 rd0 sConnecting (Event.fire 0)).getD initState) rfl rfl

/-- Claim C8: `endCall` is idempotent on the session state: a second call
from the state the first produced changes none of the status, messages,
recording flag, transcript, duration, timers or speech queue (its only
trace is one more scheduled status-reset timeout, whose effect is the
same as the first's). -/
theorem endCall_idempotent (s : AppState) (t t2 : Nat) :
    (endCallCore t2 (endCallCore t s)).status = (endCallCore t s).status ∧
    (endCallCore t2 (endCallCore t s)).messages = (endCallCore t s).messages ∧
    (endCallCore t2 (endCallCore t s)).isRecording =
      (endCallCore t s).isRecording ∧
    (endCallCore t2 (endCallCore t s)).transcript =
      (endCallCore t s).transcript ∧
    (endCallCore t2 (endCallCore t s)).callDuration =
      (endCallCore t s).callDuration ∧
    (endCallCore t2 (endCallCore t s)).timers = (endCallCore t s).timers ∧
    (endCallCore t2 (endCallCore t s)).tracked = (endCallCore t s).tracked ∧
    (endCallCore t2 (endCallCore t s)).speechQueue =
      (endCallCore t s).speechQueue := by
  cases htr : s.tracked <;> simp [endCallCore, cancelSpeech, htr]

lemma stepFn_speechQueue (rt rd : Nat → String) (s : AppState) (e : Event)
    (s2 : AppState) (h : stepFn rt rd s e = some s2) :
    s2.speechQueue = s.speechQueue ∨ s2.speechQueue.length ≤ 1 := by
  cases e with
  | clickStart t =>
    simp only [stepFn] at h
    split at h
    · split at h
      · injection h with h2
        subst h2
        exact Or.inl rfl
      · exact Option.noConfusion h
    · exact Option.noConfusion h
  | clickEnd t =>
    simp only [stepFn] at h
    split at h
    · split at h
      · injection h with h2
        subst h2
        right
        cases htr : s.tracked <;> simp [endCallCore, cancelSpeech, htr]
      · exact Option.noConfusion h
    · exact Option.noConfusion h
  | speechFinal t text =>
    simp only [stepFn] at h
    split at h
    · split at h
      · injection h with h2
        subst h2
        exact Or.inl rfl
      · exact Option.noConfusion h
    · exact Option.noConfusion h
  | speechInterim t text =>
    simp only [stepFn] at h
    split at h
    · split at h
      · injection h with h2
        subst h2
        exact Or.inl rfl
      · exact Option.noConfusion h
    · exact Option.noConfusion h
  | tick t =>
    simp only [stepFn] at h
    split at h
    · split at h
      · injection h with h2
        subst h2
        exact Or.inl rfl
      · exact Option.noConfusion h
    · exact Option.noConfusion h
  | fire i =>
    simp only [stepFn] at h
    split at h
    next d k heq =>
      split at h
      · cases k with
        | connect =>
          injection h with h2
          subst h2
          exact Or.inr (Nat.le_refl 1)
        | reset =>
          injection h with h2
          subst h2
          exact Or.inl rfl
        | reply text =>
          injection h with h2
          subst h2
          exact Or.inr (Nat.le_refl 1)
      · exact Option.noConfusion h
    next heq => exact Option.noConfusion h

lemma run_speechQueue (rt rd : Nat → String) (es : List Event)
    (s s2 : AppState) (h0 : s.speechQueue.length ≤ 1)
    (h : run rt rd s es = some s2) : s2.speechQueue.length ≤ 1 := by
  induction es generalizing s with
  | nil =>
    simp only [run] at h
    injection h with h2
    subst h2
    exact h0
  | cons e es ih =>
    simp only [run] at h
    split at h
    next s1 hs =>
      rcases stepFn_speechQueue rt rd s e s1 hs with heq | hle
      · exact ih s1 (by rw [heq]; exact h0) h
      · exact ih s1 hle h
    next => exact Option.noConfusion h

/-- Claim C9: `speak` cancels whatever is queued before enqueueing, so
the queue it returns holds exactly the new utterance, and in every
reachable session state at most one utterance is pending. -/
theorem speak_cancels_first :
    (∀ q text, speak q text = [text]) ∧
    (∀ (rt rd : Nat → String) (es : List Event) (s : AppState),
      run rt rd initState es = some s → s.speechQueue.length ≤ 1) :=
  ⟨fun _ _ => rfl,
   fun rt rd es s h => run_speechQueue rt rd es initState s (Nat.zero_le 1) h⟩

/-- Witness for C9 on a trace that connects and speaks the greeting. -/
theorem speak_cancels_first_witness :
    ((run rt0 rd0 initState [Event.clickStart 0, Event.fire 0]).getD
      initState).speechQueue.length ≤ 1 :=
  speak_cancels_first.2 rt0 rd0 [Event.clickStart 0, Event.fire 0]
    ((run rt0 rd0 initState [Event.clickStart 0, Event.fire 0]).getD
      initState) rfl

end CallAgent
